import Mathlib

/-!
# Verification of the error-catch-notifier core

A shallow embedding of `src/error-catch-notifier.js`.  JavaScript values that
can appear as subscriber candidates, error objects, options, and thrown values
are modelled by the inductive type `JSVal`.  The module-level mutable globals
(`_isEnabled`, `_isLoggingEnabled`, `_errorSubscribers`) become an explicit
state record `ECNState`, and every public operation is translated into a pure
state-passing function.  Console output is modelled as a list of
`ConsoleEntry` values, and a thrown JavaScript exception is modelled with
`Except` (or an explicit `Option JSVal` field where an operation can both
mutate state and then throw).
-/

/--
Model of the JavaScript values this library manipulates: the primitives,
plain objects, error objects, arrays, and functions.  A function value
carries its `name` property, the source text produced by `toString()`, and
its call behaviour `throwsWith`: `some e` means a call of the function throws
the value `e`, `none` means the call returns normally (with `undefined`;
no claim depends on a subscriber's return value).
-/
inductive JSVal where
  | undef
  | jsNull
  | boolV (b : Bool)
  | numV (n : Int)
  | strV (s : String)
  | objV
  | exnV (msg : String)
  | arrV (elems : List JSVal)
  | funcV (name : String) (src : String) (throwsWith : Option JSVal)

namespace JSVal

/-- JavaScript truthiness of a value (`!!v`). -/
def truthy : JSVal → Bool
  | .undef => false
  | .jsNull => false
  | .boolV b => b
  | .numV n => !(n == 0)
  | .strV s => !(s == "")
  | .objV => true
  | .exnV _ => true
  | .arrV _ => true
  | .funcV _ _ _ => true

/--
Truthiness of `v.constructor`.  Every modelled value other than `undefined`
and `null` has a truthy `constructor` (boxed primitives included); for
`undefined` and `null` the surrounding `&&` chain in the source has already
short-circuited, so the value returned here for them is never observed.
-/
def constructorTruthy : JSVal → Bool
  | .undef => false
  | .jsNull => false
  | _ => true

/-- Truthiness of `v.call`: only function values inherit a (truthy)
`Function.prototype.call`; on every other modelled value the property is
`undefined`. -/
def callTruthy : JSVal → Bool
  | .funcV _ _ _ => true
  | _ => false

/-- Truthiness of `v.apply`, analogous to `callTruthy`. -/
def applyTruthy : JSVal → Bool
  | .funcV _ _ _ => true
  | _ => false

/-- The `name` property as it appears inside a template string: the function
name for functions, `"undefined"` for every other modelled value. -/
def jsName : JSVal → String
  | .funcV n _ _ => n
  | _ => "undefined"

end JSVal

/--
JavaScript string conversion as used by template literals (`String(v)`).
Arrays convert via `Array.prototype.join(",")`, where `undefined` and `null`
elements become the empty string; functions convert to their source text.
-/
def jsToString : JSVal → String
  | .undef => "undefined"
  | .jsNull => "null"
  | .boolV true => "true"
  | .boolV false => "false"
  | .numV n => toString n
  | .strV s => s
  | .objV => "[object Object]"
  | .exnV m => m
  | .funcV _ src _ => src
  | .arrV elems => jsArrayJoin elems
where
  /-- `Array.prototype.toString`, i.e. `join(",")`. -/
  jsArrayJoin : List JSVal → String
    | [] => ""
    | [v] => joinElem v
    | v :: rest => joinElem v ++ "," ++ jsArrayJoin rest
  /-- An element's contribution to `join`: `undefined` and `null` become
  the empty string. -/
  joinElem : JSVal → String
    | .undef => ""
    | .jsNull => ""
    | .boolV true => "true"
    | .boolV false => "false"
    | .numV n => toString n
    | .strV s => s
    | .objV => "[object Object]"
    | .exnV m => m
    | .funcV _ src _ => src
    | .arrV elems => jsArrayJoin elems

/-- `Array.isArray`. -/
def isArrayJS : JSVal → Bool
  | .arrV _ => true
  | _ => false

/-! ## The argument-name regular expressions

`getArgumentNames` relies on two JavaScript regular expressions:
`/function\s.*?\(([^)]*)\)/` to extract the raw parameter-list text, and
`/\/\*.*\*\//` (with `String.prototype.replace`, i.e. first match only) to
strip an inline block comment from each comma-separated token.  Both are
implemented below over `List Char` with JavaScript's semantics: `\s` is the
JS whitespace class, `.` matches anything except a line terminator, `*?` is
lazy, `*` is greedy, and a search scans candidate start positions left to
right. -/

/-- The JavaScript `\s` character class (the commonly occurring members:
ASCII whitespace, NBSP, BOM and the Unicode line separators). -/
def jsWhitespace (c : Char) : Bool :=
  c == ' ' || c == '\t' || c == '\n' || c == '\r' ||
  c == Char.ofNat 0x0b || c == Char.ofNat 0x0c ||
  c == Char.ofNat 0xa0 || c == Char.ofNat 0xfeff ||
  c == Char.ofNat 0x2028 || c == Char.ofNat 0x2029

/-- The JavaScript `.` metacharacter (without the `s` flag): any character
except a line terminator. -/
def jsDotChar (c : Char) : Bool :=
  !(c == '\n' || c == '\r' || c == Char.ofNat 0x2028 || c == Char.ofNat 0x2029)

/-- Matches `([^)]*)\)` against `cs`: the (greedy) run of non-`)` characters
must be followed by a `)`; returns the captured run, or `none` when no `)`
remains. -/
def grabParen (cs : List Char) : Option (List Char) :=
  match cs.dropWhile (fun c => !(c == ')')) with
  | [] => none
  | _ :: _ => some (cs.takeWhile (fun c => !(c == ')')))

/-- Matches `.*?\(([^)]*)\)` lazily: tries to complete the match at the
first `(` reached, extends the lazy `.*?` one character at a time otherwise,
and fails on a line terminator or the end of the input. -/
def lazyScanParen : List Char → Option (List Char)
  | [] => none
  | '(' :: rest =>
    match grabParen rest with
    | some cap => some cap
    | none => lazyScanParen rest
  | c :: rest => if jsDotChar c then lazyScanParen rest else none

/-- Tries to match `function\s.*?\(([^)]*)\)` at the start of `cs`. -/
def matchFunctionHead (cs : List Char) : Option (List Char) :=
  match cs with
  | 'f' :: 'u' :: 'n' :: 'c' :: 't' :: 'i' :: 'o' :: 'n' :: c :: rest =>
    if jsWhitespace c then lazyScanParen rest else none
  | _ => none

/-- `String.prototype.match` with `/function\s.*?\(([^)]*)\)/`: scans start
positions left to right and returns the first capture, or `none` when the
regular expression does not match anywhere (in the source this makes
`match(...)` return `null`, so the indexing `[1]` throws and the `catch`
returns `[]`). -/
def findFunctionParams : List Char → Option (List Char)
  | [] => none
  | c :: rest =>
    match matchFunctionHead (c :: rest) with
    | some cap => some cap
    | none => findFunctionParams rest

/-- Scans for the last position `j` (0-based in `cs`) such that `cs` has
`*` at `j` and `/` at `j + 1` and every character before `j` matches the
JS `.`; this is where the greedy `.*` of `/\/\*.*\*\//` hands over to the
closing `\*\/`. -/
def lastCommentClose : List Char → Nat → Option Nat → Option Nat
  | [], _, best => best
  | '*' :: tl, j, best =>
    match tl with
    | '/' :: _ => lastCommentClose tl (j + 1) (some j)
    | _ => lastCommentClose tl (j + 1) best
  | c :: tl, j, best =>
    if jsDotChar c then lastCommentClose tl (j + 1) best else best

/-- `token.replace(/\/\*.*\*\//, '')`: removes the first (leftmost, with a
greedy body) inline block-comment match, leaving the token unchanged when
the pattern does not match. -/
def stripFirstComment : List Char → List Char
  | [] => []
  | '/' :: '*' :: rest =>
    match lastCommentClose rest 0 none with
    | some j => rest.drop (j + 2)
    | none => '/' :: stripFirstComment ('*' :: rest)
  | c :: rest => c :: stripFirstComment rest

/-- `String.prototype.trim`, which strips the JS whitespace class from both
ends. -/
def jsTrim (cs : List Char) : List Char :=
  ((cs.dropWhile jsWhitespace).reverse.dropWhile jsWhitespace).reverse

/-- `String.prototype.split(',')`; note `"".split(',')` is `[""]`. -/
def splitCommas : List Char → List (List Char)
  | [] => [[]]
  | ',' :: rest => [] :: splitCommas rest
  | c :: rest =>
    match splitCommas rest with
    | t :: ts => (c :: t) :: ts
    | [] => [[c]]

/--
The body of `getArgumentNames` on the source text of the callable: extract
the parameter-list text with the function-head regular expression (returning
`[]` when it does not match, mirroring the `try`/`catch`), split it on
commas, strip an inline block comment and surrounding whitespace from each
token, and keep only the truthy (non-empty) tokens.
-/
def argumentNamesOfSource (src : String) : List String :=
  match findFunctionParams src.toList with
  | none => []
  | some cap =>
    ((splitCommas cap).map
      (fun tok => String.mk (jsTrim (stripFirstComment tok)))).filter
      (fun s => !(s == ""))

/-- `getArgumentNames(targetFunction)`: inspects `targetFunction.toString()`.
For the values whose `toString()` would itself throw (`undefined`, `null`)
the surrounding `catch` in the source returns `[]`, which coincides with
running the regular expression on their string form. -/
def getArgumentNames (targetFunction : JSVal) : List String :=
  argumentNamesOfSource (jsToString targetFunction)

/-- `isFunction(obj)`: `!!(obj && obj.constructor && obj.call && obj.apply)`,
a short-circuiting truthiness chain over the modelled property lookups. -/
def isFunction (obj : JSVal) : Bool :=
  obj.truthy && obj.constructorTruthy && obj.callTruthy && obj.applyTruthy

/-! ## Global configuration state and console output -/

/-- One console call.  The source distinguishes `console.warn`,
`console.error` and `console.log`, and each call passes either a template
string or a raw value; the five constructors keep those apart. -/
inductive ConsoleEntry where
  | warn (s : String)
  | errorMsg (s : String)
  | errorVal (v : JSVal)
  | logMsg (s : String)
  | logVal (v : JSVal)

/-- The module-level mutable state: `_isEnabled`, `_isLoggingEnabled` and
`_errorSubscribers`. -/
structure ECNState where
  isEnabled : Bool
  isLoggingEnabled : Bool
  errorSubscribers : List JSVal

/-- The state at module load: `false`, `false`, `[]`. -/
def initialState : ECNState :=
  { isEnabled := false, isLoggingEnabled := false, errorSubscribers := [] }

/-- `enableLogging()`. -/
def enableLogging (s : ECNState) : ECNState :=
  { s with isLoggingEnabled := true }

/-- `disableLogging()`. -/
def disableLogging (s : ECNState) : ECNState :=
  { s with isLoggingEnabled := false }

/-- `enableErrorCatching()`: refuses (and, when logging is enabled, warns)
when the stored subscriber list is empty; sets the flag to `true`
otherwise. -/
def enableErrorCatching (s : ECNState) : ECNState × List ConsoleEntry :=
  if s.errorSubscribers.length = 0 then
    ({ s with isEnabled := false },
      if s.isLoggingEnabled then
        [.warn "No valid error subscribers provided. Use init to pass valid error subscribers"]
      else [])
  else
    ({ s with isEnabled := true }, [])

/-- `disableErrorCatching()` (its JavaScript return value `true` is unused
by every caller and is not modelled). -/
def disableErrorCatching (s : ECNState) : ECNState :=
  { s with isEnabled := false }

/-! ## Subscriber list construction -/

/-- The body of the filter callback `errorSubscriberFunctionsFilter` for one
candidate at index `i`: whether the candidate is kept, and the warnings it
emits.  `subscriberFunctionArgumentNames[0] !== 'error'` compares the
(possibly `undefined`) head of the argument-name list against the literal
string. -/
def subscriberFilterStep (logging : Bool) (i : Nat) (subscriberCallback : JSVal) :
    Bool × List ConsoleEntry :=
  if isFunction subscriberCallback = false then
    (false,
      if logging then
        [.warn ("Skipping error subscriber: " ++ jsToString subscriberCallback ++
          " at errorSubscribers index " ++ toString i),
         .warn "Subscriber is not a function"]
      else [])
  else if (getArgumentNames subscriberCallback).head? ≠ some "error" then
    (false,
      if logging then
        [.warn ("Skipping error subscriber: " ++ subscriberCallback.jsName),
         .warn "First argument of subscriber function must be named error"]
      else [])
  else
    (true, [])

/-- `Array.prototype.filter` with the subscriber callback, threading the
element index and collecting warnings in evaluation order. -/
def buildGo (logging : Bool) : Nat → List JSVal → List JSVal × List ConsoleEntry
  | _, [] => ([], [])
  | i, v :: rest =>
    (if (subscriberFilterStep logging i v).1 then v :: (buildGo logging (i + 1) rest).1
     else (buildGo logging (i + 1) rest).1,
     (subscriberFilterStep logging i v).2 ++ (buildGo logging (i + 1) rest).2)

/-- `buildSubscriberList(errorSubscriberFunctions = [])`: calls
`errorSubscriberFunctions.filter(...)`.  On a non-array value the property
lookup `.filter` yields `undefined` (or throws outright on `undefined` and
`null`), so the call raises a `TypeError` that propagates to the caller. -/
def buildSubscriberList (logging : Bool) (errorSubscriberFunctions : JSVal) :
    Except JSVal (List JSVal × List ConsoleEntry) :=
  match errorSubscriberFunctions with
  | .arrV elems => .ok (buildGo logging 0 elems)
  | _ => .error (.exnV "TypeError: errorSubscriberFunctions.filter is not a function")

/-! ## initErrorCatchNotifier -/

/-- The outcome of `initErrorCatchNotifier`: the global state it leaves
behind, the console output it produced, and the exception it threw, if
any (`thrown = some e` means `e` propagated to the caller with the state
mutations made so far kept, as with JavaScript globals). -/
structure InitResult where
  state : ECNState
  consoleOut : List ConsoleEntry
  thrown : Option JSVal

/--
The body of `initErrorCatchNotifier` after the logging flag has been
applied, over the updated state `s1` (factored out so the two steps can be
reasoned about separately).  When the input is not an array AND the
just-set logging flag is on, the error line is reported and the function
returns early.  When the input is not an array and logging is off, nothing
guards the fall-through: `buildSubscriberList` is called on the non-array
value and its `TypeError` propagates (the early `return` of the source sits
inside the `if (_isLoggingEnabled)` block).
-/
def initAfterLogging (errorSubscriberFunctions : JSVal) (enabled : Bool)
    (s1 : ECNState) : InitResult :=
  if !isArrayJS errorSubscriberFunctions && s1.isLoggingEnabled then
    { state := s1,
      consoleOut := [.errorMsg "errorSubscriberFunctions must be an array of functions"],
      thrown := none }
  else
    match buildSubscriberList s1.isLoggingEnabled errorSubscriberFunctions with
    | .error e => { state := s1, consoleOut := [], thrown := some e }
    | .ok (subs, buildOut) =>
      let s2 := { s1 with errorSubscribers := subs }
      if enabled then
        { state := (enableErrorCatching s2).1,
          consoleOut := buildOut ++ (enableErrorCatching s2).2, thrown := none }
      else
        { state := disableErrorCatching s2, consoleOut := buildOut, thrown := none }

/-- `initErrorCatchNotifier(errorSubscriberFunctions = [], enabled = false,
loggingEnabled = false)`: applies the logging flag per `loggingEnabled`,
then runs the rest of the body on the updated state. -/
def initErrorCatchNotifier (errorSubscriberFunctions : JSVal)
    (enabled loggingEnabled : Bool) (s : ECNState) : InitResult :=
  initAfterLogging errorSubscriberFunctions enabled
    (if loggingEnabled then enableLogging s else disableLogging s)

/-! ## Failback factory -/

/-- `makeErrorSubscriberFailback(errorSubscriberName)` returns a closure
whose only captured datum is the subscriber name; the closure is
represented by that name, and its behaviour by
`errorSubscriberFailback` below. -/
def makeErrorSubscriberFailback (errorSubscriberName : String) : String :=
  errorSubscriberName

/-- The behaviour of the returned failback `errorSubscriberFailback(error,
data)`.  `logging` is the live `_isLoggingEnabled` at the time the failback
is invoked.  The guards are JavaScript truthiness tests (`if (error)`,
`if (data)`), and both blocks may fire in one call. -/
def errorSubscriberFailback (logging : Bool) (errorSubscriberName : String)
    (error data : JSVal) : List ConsoleEntry :=
  if !logging then []
  else
    (if error.truthy then
      [.errorMsg ("Error subscriber " ++ errorSubscriberName ++ " failed with error"),
       .errorVal error]
    else []) ++
    (if data.truthy then
      [.logMsg ("Error subscriber " ++ errorSubscriberName ++ " succeeded with"),
       .logVal data]
    else [])

/-! ## Notifier -/

/-- The result of evaluating the call expression
`errorSubscriber(error, options, makeErrorSubscriberFailback(name))` on a
stored subscriber: `none` when the call returns normally, `some e` when it
throws `e`.  A non-function entry (impossible in a reachable state, since
`buildSubscriberList` filters them out) makes the call expression itself
raise a `TypeError`, which the surrounding `try` also catches. -/
def callResult : JSVal → Option JSVal
  | .funcV _ _ t => t
  | _ => some (.exnV "TypeError: errorSubscriber is not a function")

/-- A record of one executed subscriber call expression inside
`notifyErrorSubscribers`: the subscriber, the two forwarded arguments, and
the name curried into the freshly created failback passed as the third
argument. -/
structure NotifyEvent where
  subscriber : JSVal
  error : JSVal
  options : JSVal
  failbackName : String

/-- Builds the `NotifyEvent` for one subscriber call. -/
def mkNotifyEvent (subscriber error options : JSVal) : NotifyEvent :=
  { subscriber := subscriber, error := error, options := options,
    failbackName := makeErrorSubscriberFailback subscriber.jsName }

/-- The `for` loop of `notifyErrorSubscribers`: each subscriber is called
with `(error, options, freshFailback)`; a throwing call is caught, and the
`catch` block returns from the whole function when logging is disabled,
or logs the two diagnostic lines and lets the loop continue when logging
is enabled. -/
def notifyGo (logging : Bool) (error options : JSVal) :
    List JSVal → List NotifyEvent × List ConsoleEntry
  | [] => ([], [])
  | sub :: rest =>
    match callResult sub with
    | none =>
      (mkNotifyEvent sub error options :: (notifyGo logging error options rest).1,
       (notifyGo logging error options rest).2)
    | some caught =>
      if !logging then ([mkNotifyEvent sub error options], [])
      else
        (mkNotifyEvent sub error options :: (notifyGo logging error options rest).1,
         .errorMsg ("Skipping error subscriber: " ++ sub.jsName) ::
         .errorVal caught :: (notifyGo logging error options rest).2)

/-- `notifyErrorSubscribers(error, options)`.  The function contains no
assignment to any module global, so the state it leaves behind is the state
it was called in; it returns the subscriber calls it executed and the
console output it produced. -/
def notifyErrorSubscribers (s : ECNState) (error options : JSVal) :
    ECNState × List NotifyEvent × List ConsoleEntry :=
  (s, notifyGo s.isLoggingEnabled error options s.errorSubscribers)

/-! ## Wrapper -/

/-- `wrap(targetFunction, options)` returns `wrappedFunction`.  The target
is modelled by its call behaviour on an argument list: `Except.error e`
models a synchronous throw of `e`.  The closure reads the live state `s` on
every call: when catching is disabled it is a pass-through; when enabled it
runs the target in a guarded region, notifying the subscribers and
returning `undefined` (the declared-but-unassigned `value`) on a throw. -/
def wrap (targetFunction : List JSVal → Except JSVal JSVal) (options : JSVal)
    (s : ECNState) (args : List JSVal) :
    Except JSVal (JSVal × List NotifyEvent × List ConsoleEntry) :=
  if s.isEnabled = false then
    match targetFunction args with
    | .ok v => .ok (v, [], [])
    | .error e => .error e
  else
    match targetFunction args with
    | .ok v => .ok (v, [], [])
    | .error e => .ok (.undef, (notifyErrorSubscribers s e options).2)

/-! ## Reachable configuration states -/

/-- The states the module globals can reach through the public operations,
starting from the load-time state.  `initErrorCatchNotifier` contributes
the state it leaves behind in every case, its throwing path included;
`notifyErrorSubscribers` and wrapped calls mutate nothing. -/
inductive Reachable : ECNState → Prop where
  | load : Reachable initialState
  | stepEnableLogging (s : ECNState) : Reachable s → Reachable (enableLogging s)
  | stepDisableLogging (s : ECNState) : Reachable s → Reachable (disableLogging s)
  | stepEnableErrorCatching (s : ECNState) :
      Reachable s → Reachable (enableErrorCatching s).1
  | stepDisableErrorCatching (s : ECNState) :
      Reachable s → Reachable (disableErrorCatching s)
  | stepInit (s : ECNState) (cands : JSVal) (enabled loggingEnabled : Bool) :
      Reachable s → Reachable (initErrorCatchNotifier cands enabled loggingEnabled s).state
  | stepNotify (s : ECNState) (error options : JSVal) :
      Reachable s → Reachable (notifyErrorSubscribers s error options).1

example : argumentNamesOfSource "function errorSubscriber(error) {}" = ["error"] := by
  rfl

example : argumentNamesOfSource "function f(argument1 /*inline comment*/, argument2) { return true; }" =
    ["argument1", "argument2"] := by
  rfl

example : argumentNamesOfSource "function zero() { return 1; }" = [] := by
  rfl

example : argumentNamesOfSource "(error) => handle(error)" = [] := by
  rfl

example : argumentNamesOfSource "[object Object]" = [] := by
  rfl

/-! ## Derived predicates used by the theorems -/

/-- The predicate `buildSubscriberList` keeps a candidate by: it is a
function and its first extracted argument name is exactly `"error"`. -/
def isValidSubscriber (v : JSVal) : Bool :=
  isFunction v && ((getArgumentNames v).head? == some "error")

/-- The prefix of a subscriber list up to and including its first throwing
entry (the whole list when no entry throws): the subscribers
`notifyErrorSubscribers` calls when logging is disabled. -/
def takeThroughFirstThrow : List JSVal → List JSVal
  | [] => []
  | sub :: rest =>
    match callResult sub with
    | none => sub :: takeThroughFirstThrow rest
    | some _ => [sub]

/-- The two diagnostic lines a throwing subscriber contributes when logging
is enabled; a non-throwing subscriber contributes nothing. -/
def throwLogLines (sub : JSVal) : List ConsoleEntry :=
  match callResult sub with
  | none => []
  | some caught =>
    [.errorMsg ("Skipping error subscriber: " ++ sub.jsName), .errorVal caught]

/-! ## Theorems -/

/--
C7.  `isFunction` returns `true` exactly on the callable values of the
model: `true` for named and anonymous functions, `false` for `undefined`,
`null`, booleans, numbers, strings, plain objects, error objects and
arrays.
-/
theorem isFunction_eq_true_iff (v : JSVal) :
    isFunction v = true ↔ ∃ name src throwsWith, v = JSVal.funcV name src throwsWith := by
  cases v <;>
    simp [isFunction, JSVal.truthy, JSVal.constructorTruthy, JSVal.callTruthy,
      JSVal.applyTruthy]

/--
C10.  Calling `notifyErrorSubscribers` while the stored subscriber list is
empty is a complete no-op: no subscriber call is executed, no console line
is produced, nothing is thrown (the result type has no throwing case: the
only potentially-throwing expression sits inside the loop body, which is
never entered), and the configuration state is returned unchanged.  The
load-time state `initialState` has an empty list, so this covers calls made
before any `initErrorCatchNotifier`.
-/
theorem notifyErrorSubscribers_empty_noop (s : ECNState) (error options : JSVal)
    (h : s.errorSubscribers = []) :
    notifyErrorSubscribers s error options = (s, [], []) := by
  unfold notifyErrorSubscribers
  rw [h]
  rfl

theorem notifyErrorSubscribers_empty_noop_witness :
    initialState.errorSubscribers = [] ∧
    notifyErrorSubscribers initialState (JSVal.exnV "boom") JSVal.undef =
      (initialState, [], []) :=
  ⟨rfl, notifyErrorSubscribers_empty_noop initialState (JSVal.exnV "boom") JSVal.undef rfl⟩

/--
C1 (code bug).  With a non-array input and `loggingEnabled = false`,
`initErrorCatchNotifier` does NOT fail silently: the early `return` of the
validation branch sits inside the `if (_isLoggingEnabled)` block, so the
call falls through to `buildSubscriberList`, where `({}).filter` raises a
`TypeError` that propagates to the caller.  The first two conjuncts
evaluate the failing input (the state mutated so far — only the logging
flag — is kept, so the subscriber list and catching flag are indeed
unchanged, but an exception escapes, contradicting the claim).  The last
two conjuncts show the logging-enabled path behaving as the claim states:
no throw, and exactly the documented error line.
-/
theorem initErrorCatchNotifier_nonArray_fallthrough :
    (initErrorCatchNotifier JSVal.objV false false initialState).thrown =
      some (JSVal.exnV "TypeError: errorSubscriberFunctions.filter is not a function") ∧
    (initErrorCatchNotifier JSVal.objV false false initialState).state =
      disableLogging initialState ∧
    (initErrorCatchNotifier JSVal.objV false true initialState).thrown = none ∧
    (initErrorCatchNotifier JSVal.objV false true initialState).consoleOut =
      [ConsoleEntry.errorMsg "errorSubscriberFunctions must be an array of functions"] :=
  ⟨rfl, rfl, rfl, rfl⟩

/--
C9 counterexample.  The failback guards on JavaScript truthiness, not on
presence: with logging enabled, a present but falsy `error` argument (here
the number `0`, which is not `undefined`) produces no output at all,
contradicting "logs ... exactly when error is present".
-/
theorem errorSubscriberFailback_presence_counterexample :
    JSVal.numV 0 ≠ JSVal.undef ∧
    errorSubscriberFailback true "sub" (JSVal.numV 0) JSVal.undef = [] :=
  ⟨fun h => JSVal.noConfusion h, rfl⟩

/--
C9 (amended).  For every name and `(error, data)` pair the failback emits
nothing when logging is disabled; when logging is enabled it emits the two
failure lines exactly when `error` is truthy and, independently, the two
success lines exactly when `data` is truthy — both blocks may fire in one
call, failure lines first.
-/
theorem errorSubscriberFailback_amended (name : String) (e d : JSVal) :
    errorSubscriberFailback false name e d = [] ∧
    (e.truthy = true → d.truthy = true →
      errorSubscriberFailback true name e d =
        [.errorMsg ("Error subscriber " ++ name ++ " failed with error"), .errorVal e,
         .logMsg ("Error subscriber " ++ name ++ " succeeded with"), .logVal d]) ∧
    (e.truthy = true → d.truthy = false →
      errorSubscriberFailback true name e d =
        [.errorMsg ("Error subscriber " ++ name ++ " failed with error"), .errorVal e]) ∧
    (e.truthy = false → d.truthy = true →
      errorSubscriberFailback true name e d =
        [.logMsg ("Error subscriber " ++ name ++ " succeeded with"), .logVal d]) ∧
    (e.truthy = false → d.truthy = false →
      errorSubscriberFailback true name e d = []) := by
  refine ⟨rfl, ?_, ?_, ?_, ?_⟩ <;>
    · intro he hd
      simp [errorSubscriberFailback, he, hd]

theorem errorSubscriberFailback_amended_witness :
    (JSVal.exnV "E").truthy = true ∧ (JSVal.strV "payload").truthy = true ∧
    errorSubscriberFailback true "sub" (JSVal.exnV "E") (JSVal.strV "payload") =
      [.errorMsg "Error subscriber sub failed with error", .errorVal (JSVal.exnV "E"),
       .logMsg "Error subscriber sub succeeded with", .logVal (JSVal.strV "payload")] :=
  ⟨rfl, rfl,
    (errorSubscriberFailback_amended "sub" (JSVal.exnV "E") (JSVal.strV "payload")).2.1 rfl rfl⟩

/--
C4.  When catching is disabled at call time, a call of the wrapped function
is the call of the target: the target's returned value is returned
untouched (with no subscriber call and no console output), and a throw of
the target propagates unchanged to the wrapped call's caller.
-/
theorem wrap_disabled_passthrough (s : ECNState)
    (targetFunction : List JSVal → Except JSVal JSVal) (options : JSVal)
    (args : List JSVal) (h : s.isEnabled = false) :
    wrap targetFunction options s args =
      Except.map (fun v => (v, ([], []))) (targetFunction args) := by
  unfold wrap
  rw [h]
  cases targetFunction args <;> rfl

/-- A target that always throws, used to exercise the pass-through
direction in which the exception escapes the wrapper. -/
def alwaysThrowingTarget : List JSVal → Except JSVal JSVal :=
  fun _ => .error (.exnV "target failure")

theorem wrap_disabled_passthrough_witness :
    initialState.isEnabled = false ∧
    wrap alwaysThrowingTarget JSVal.undef initialState [JSVal.numV 1] =
      Except.map (fun v => (v, ([], []))) (alwaysThrowingTarget [JSVal.numV 1]) ∧
    wrap alwaysThrowingTarget JSVal.undef initialState [JSVal.numV 1] =
      Except.error (JSVal.exnV "target failure") :=
  ⟨rfl,
    wrap_disabled_passthrough initialState alwaysThrowingTarget JSVal.undef [JSVal.numV 1] rfl,
    rfl⟩

/-- The keep-decision of the filter callback agrees with
`isValidSubscriber` and does not depend on the element index or the
logging flag. -/
theorem subscriberFilterStep_fst (logging : Bool) (i : Nat) (v : JSVal) :
    (subscriberFilterStep logging i v).1 = isValidSubscriber v := by
  unfold subscriberFilterStep isValidSubscriber
  cases hf : isFunction v <;>
    by_cases hh : (getArgumentNames v).head? = some "error" <;>
      simp [hf, hh]

/-- The surviving candidates of `buildGo` are the `isValidSubscriber`
filter of the input, independently of the starting index. -/
theorem buildGo_fst (logging : Bool) (cands : List JSVal) :
    ∀ i, (buildGo logging i cands).1 = cands.filter isValidSubscriber := by
  induction cands with
  | nil => intro i; rfl
  | cons v rest ih =>
    intro i
    simp only [buildGo, List.filter_cons, subscriberFilterStep_fst, ih (i + 1)]

/-- With logging disabled the filter callback emits nothing. -/
theorem subscriberFilterStep_snd_false (i : Nat) (v : JSVal) :
    (subscriberFilterStep false i v).2 = [] := by
  unfold subscriberFilterStep
  split <;> simp
  split <;> simp

/-- With logging disabled `buildGo` emits nothing. -/
theorem buildGo_snd_false (cands : List JSVal) :
    ∀ i, (buildGo false i cands).2 = [] := by
  induction cands with
  | nil => intro i; rfl
  | cons v rest ih =>
    intro i
    simp only [buildGo, subscriberFilterStep_snd_false, ih (i + 1), List.nil_append]

/--
C6.  On an array input, `buildSubscriberList` returns exactly the candidates
that are functions and whose first extracted argument name is `"error"`,
untransformed and in input order: the output is the `isValidSubscriber`
filter of the input, hence a sublist (order-preserving subsequence) of it,
and membership in the output is membership in the input plus the two
validity checks.  The omitted-input default `[]` yields `[]`, and with
logging disabled no console line is produced.
-/
theorem buildSubscriberList_spec (logging : Bool) (cands : List JSVal) :
    buildSubscriberList logging (.arrV cands) =
      .ok (cands.filter isValidSubscriber, (buildGo logging 0 cands).2) ∧
    (cands.filter isValidSubscriber).Sublist cands ∧
    (∀ v, v ∈ cands.filter isValidSubscriber ↔
      v ∈ cands ∧ isFunction v = true ∧ (getArgumentNames v).head? = some "error") ∧
    buildSubscriberList logging (.arrV []) = .ok ([], []) ∧
    (buildGo false 0 cands).2 = [] := by
  refine ⟨?_, List.filter_sublist cands, ?_, rfl, buildGo_snd_false cands 0⟩
  · simp only [buildSubscriberList]
    rw [← buildGo_fst logging cands 0]
  · intro v
    simp [List.mem_filter, isValidSubscriber, Bool.and_eq_true, and_assoc]

/-- A stored subscriber whose call throws, with a valid signature. -/
def throwingSubscriber : JSVal :=
  .funcV "throwingSubscriber" "function throwingSubscriber(error) {}"
    (some (.exnV "subscriber failure"))

/-- A stored subscriber whose call returns normally, with a valid
signature. -/
def okSubscriber : JSVal :=
  .funcV "okSubscriber" "function okSubscriber(error) {}" none

/-- A configuration whose stored list is a throwing subscriber followed by
a well-behaved one, with logging enabled. -/
def stateThrowFirstLogging : ECNState :=
  { isEnabled := true, isLoggingEnabled := true,
    errorSubscribers := [throwingSubscriber, okSubscriber] }

/--
C2 counterexample.  With logging enabled, iteration does NOT stop at the
first throwing subscriber: in a stored list whose first subscriber throws,
the second subscriber is still called in the same notify cycle (the `catch`
block only returns early when logging is disabled; otherwise it logs the
two lines and lets the loop continue).
-/
theorem notify_stop_counterexample :
    callResult throwingSubscriber = some (JSVal.exnV "subscriber failure") ∧
    stateThrowFirstLogging.isLoggingEnabled = true ∧
    (notifyErrorSubscribers stateThrowFirstLogging (JSVal.exnV "E") JSVal.undef).2.1 =
      [mkNotifyEvent throwingSubscriber (JSVal.exnV "E") JSVal.undef,
       mkNotifyEvent okSubscriber (JSVal.exnV "E") JSVal.undef] :=
  ⟨rfl, rfl, rfl⟩

/--
C2 (amended).  A synchronous throw of a subscriber is caught locally.  When
logging is disabled the notify cycle stops at the first throwing subscriber
— the executed calls are exactly the input list up to and including that
subscriber — and nothing is emitted.  When logging is enabled every stored
subscriber is called, and each throwing one contributes exactly the two
diagnostic lines `"Skipping error subscriber: <name>"` and the caught
error, in list order.  (The loop of `notifyErrorSubscribers` is `notifyGo`,
applied to the live logging flag and stored list, per the last conjunct.)
-/
theorem notifyErrorSubscribers_amended (error options : JSVal) (subs : List JSVal) :
    notifyGo false error options subs =
      ((takeThroughFirstThrow subs).map (fun sub => mkNotifyEvent sub error options), []) ∧
    notifyGo true error options subs =
      (subs.map (fun sub => mkNotifyEvent sub error options),
       (subs.map throwLogLines).flatten) ∧
    ∀ s : ECNState, notifyErrorSubscribers s error options =
      (s, notifyGo s.isLoggingEnabled error options s.errorSubscribers) := by
  refine ⟨?_, ?_, fun s => rfl⟩
  · induction subs with
    | nil => rfl
    | cons sub rest ih =>
      cases h : callResult sub <;>
        simp [notifyGo, takeThroughFirstThrow, h, ih]
  · induction subs with
    | nil => rfl
    | cons sub rest ih =>
      cases h : callResult sub <;>
        simp [notifyGo, throwLogLines, h, ih]

/-- If a stored subscriber does not throw, and either logging is enabled or
no subscriber before it throws, then its call — with the notified error,
the options, and a fresh failback curried with its own name — is executed
during the notify cycle. -/
theorem notifyGo_invokes (logging : Bool) (error options : JSVal) :
    ∀ (pre : List JSVal) (sub : JSVal) (post : List JSVal),
      callResult sub = none →
      (logging = true ∨ ∀ t ∈ pre, callResult t = none) →
      mkNotifyEvent sub error options ∈
        (notifyGo logging error options (pre ++ sub :: post)).1 := by
  intro pre
  induction pre with
  | nil =>
    intro sub post hok _
    simp [notifyGo, hok]
  | cons t rest ih =>
    intro sub post hok hguard
    cases ht : callResult t with
    | none =>
      have hmem := ih sub post hok
        (hguard.imp id (fun h u hu => h u (List.mem_cons_of_mem t hu)))
      simp only [List.cons_append, notifyGo, ht]
      exact List.mem_cons_of_mem _ hmem
    | some caught =>
      have hlog : logging = true := by
        rcases hguard with h | h
        · exact h
        · exact absurd (h t (List.mem_cons_self t rest)) (by simp [ht])
      subst hlog
      have hmem := ih sub post hok (Or.inl rfl)
      simp only [List.cons_append, notifyGo, ht, Bool.not_true]
      exact List.mem_cons_of_mem _ hmem

/--
C3.  When catching is enabled at call time and the target throws `E`, the
wrapped call returns `undefined` — the error does not propagate past the
wrapper — and the notify cycle it triggers (on the live logging flag and
stored subscriber list, with `E` and the wrap-time options) executes the
call of every stored subscriber that does not itself throw and is not cut
off by the stop rule (the early return of the catch block, which only
applies when logging is disabled and some earlier subscriber threw), each
receiving `E` as first argument, the options as second, and a fresh
failback curried with its own name as third.
-/
theorem wrap_enabled_throws_spec (s : ECNState)
    (targetFunction : List JSVal → Except JSVal JSVal) (options : JSVal)
    (args : List JSVal) (E : JSVal)
    (henabled : s.isEnabled = true) (hthrows : targetFunction args = .error E) :
    wrap targetFunction options s args =
      .ok (.undef, notifyGo s.isLoggingEnabled E options s.errorSubscribers) ∧
    ∀ pre sub post, s.errorSubscribers = pre ++ sub :: post →
      callResult sub = none →
      (s.isLoggingEnabled = true ∨ ∀ t ∈ pre, callResult t = none) →
      mkNotifyEvent sub E options ∈
        (notifyGo s.isLoggingEnabled E options s.errorSubscribers).1 := by
  constructor
  · unfold wrap
    rw [henabled, hthrows]
    rfl
  · intro pre sub post hsplit hok hguard
    rw [hsplit]
    exact notifyGo_invokes s.isLoggingEnabled E options pre sub post hok hguard

/-- A second well-behaved stored subscriber. -/
def secondOkSubscriber : JSVal :=
  .funcV "secondOkSubscriber" "function secondOkSubscriber(error) {}" none

/-- Catching enabled, logging disabled, two well-behaved subscribers. -/
def stateTwoOkSubscribers : ECNState :=
  { isEnabled := true, isLoggingEnabled := false,
    errorSubscribers := [okSubscriber, secondOkSubscriber] }

theorem wrap_enabled_throws_spec_witness :
    stateTwoOkSubscribers.isEnabled = true ∧
    alwaysThrowingTarget [JSVal.numV 7] = .error (JSVal.exnV "target failure") ∧
    wrap alwaysThrowingTarget (JSVal.strV "opts") stateTwoOkSubscribers [JSVal.numV 7] =
      .ok (.undef, notifyGo false (JSVal.exnV "target failure") (JSVal.strV "opts")
        [okSubscriber, secondOkSubscriber]) ∧
    mkNotifyEvent okSubscriber (JSVal.exnV "target failure") (JSVal.strV "opts") ∈
      (notifyGo false (JSVal.exnV "target failure") (JSVal.strV "opts")
        [okSubscriber, secondOkSubscriber]).1 := by
  refine ⟨rfl, rfl, ?_, ?_⟩
  · exact (wrap_enabled_throws_spec stateTwoOkSubscribers alwaysThrowingTarget
      (JSVal.strV "opts") [JSVal.numV 7] (JSVal.exnV "target failure") rfl rfl).1
  · exact (wrap_enabled_throws_spec stateTwoOkSubscribers alwaysThrowingTarget
      (JSVal.strV "opts") [JSVal.numV 7] (JSVal.exnV "target failure") rfl rfl).2
      [] okSubscriber [secondOkSubscriber] rfl rfl (Or.inr (by simp))

/-- The state `enableErrorCatching` produces satisfies the catching
invariant outright: the flag comes out `true` only through the non-empty
branch, which leaves the (non-empty) subscriber list untouched. -/
theorem enableErrorCatching_establishes (s : ECNState) :
    (enableErrorCatching s).1.isEnabled = true →
    (enableErrorCatching s).1.errorSubscribers ≠ [] := by
  by_cases hlen : s.errorSubscribers.length = 0
  · intro h
    simp [enableErrorCatching, hlen] at h
  · intro _
    simp only [enableErrorCatching, if_neg hlen]
    intro heq
    exact hlen (by simp [heq])

/-- The tail of `initErrorCatchNotifier` preserves the catching invariant:
every branch either keeps both relevant fields of `s1` (early return,
throw), ends in `disableErrorCatching`, or ends in `enableErrorCatching`
over the freshly stored list. -/
theorem initAfterLogging_invariant (cands : JSVal) (enabled : Bool) (s1 : ECNState)
    (ih : s1.isEnabled = true → s1.errorSubscribers ≠ []) :
    (initAfterLogging cands enabled s1).state.isEnabled = true →
    (initAfterLogging cands enabled s1).state.errorSubscribers ≠ [] := by
  unfold initAfterLogging
  split
  · exact ih
  · split
    · exact ih
    · split
      · exact enableErrorCatching_establishes _
      · intro h
        exact absurd h (by simp [disableErrorCatching])

/-- `initErrorCatchNotifier` preserves the catching invariant: every path
either leaves both relevant fields unchanged (early return, throw), ends in
`disableErrorCatching`, or ends in `enableErrorCatching` over the freshly
stored list. -/
theorem initErrorCatchNotifier_invariant (cands : JSVal) (enabled loggingEnabled : Bool)
    (s : ECNState) (ih : s.isEnabled = true → s.errorSubscribers ≠ []) :
    (initErrorCatchNotifier cands enabled loggingEnabled s).state.isEnabled = true →
    (initErrorCatchNotifier cands enabled loggingEnabled s).state.errorSubscribers ≠ [] := by
  unfold initErrorCatchNotifier
  apply initAfterLogging_invariant
  cases loggingEnabled
  · exact ih
  · exact ih

/-- In every reachable configuration the catching flag is `true` only with
a non-empty stored subscriber list. -/
theorem reachable_catching_nonempty {s : ECNState} (hr : Reachable s) :
    s.isEnabled = true → s.errorSubscribers ≠ [] := by
  induction hr with
  | load => intro h; exact absurd h (by simp [initialState])
  | stepEnableLogging s0 hprev ih => exact ih
  | stepDisableLogging s0 hprev ih => exact ih
  | stepEnableErrorCatching s0 hprev ih => exact enableErrorCatching_establishes s0
  | stepDisableErrorCatching s0 hprev ih =>
    intro h
    exact absurd h (by simp [disableErrorCatching])
  | stepInit s0 cands enabled loggingEnabled hprev ih =>
    exact initErrorCatchNotifier_invariant cands enabled loggingEnabled s0 ih
  | stepNotify s0 error options hprev ih => exact ih

/--
C5.  In every reachable configuration the catching flag is `true` only if
the stored subscriber list is non-empty (it was non-empty at the moment
catching was enabled, and no operation empties it while leaving the flag
up); and `enableErrorCatching` on a state with an empty stored list leaves
the flag `false`, emitting the documented warning exactly when logging is
enabled.
-/
theorem catching_enabled_invariant :
    (∀ s : ECNState, Reachable s → s.isEnabled = true → s.errorSubscribers ≠ []) ∧
    (∀ s : ECNState, s.errorSubscribers = [] →
      enableErrorCatching s =
        ({ s with isEnabled := false },
          if s.isLoggingEnabled then
            [ConsoleEntry.warn
              "No valid error subscribers provided. Use init to pass valid error subscribers"]
          else [])) := by
  constructor
  · intro s hr
    exact reachable_catching_nonempty hr
  · intro s h
    unfold enableErrorCatching
    rw [h]
    rfl

/-- The state after `initErrorCatchNotifier([okSubscriber], true, false)`
from the load-time state: catching enabled with one stored subscriber. -/
def reachableEnabledState : ECNState :=
  (initErrorCatchNotifier (.arrV [okSubscriber]) true false initialState).state

theorem catching_enabled_invariant_witness :
    Reachable reachableEnabledState ∧
    reachableEnabledState.isEnabled = true ∧
    reachableEnabledState.errorSubscribers ≠ [] ∧
    initialState.errorSubscribers = [] ∧
    enableErrorCatching initialState =
      ({ initialState with isEnabled := false },
        if initialState.isLoggingEnabled then
          [ConsoleEntry.warn
            "No valid error subscribers provided. Use init to pass valid error subscribers"]
        else []) := by
  have hreach : Reachable reachableEnabledState :=
    Reachable.stepInit initialState (.arrV [okSubscriber]) true false Reachable.load
  exact ⟨hreach, rfl, catching_enabled_invariant.1 reachableEnabledState hreach rfl,
    rfl, catching_enabled_invariant.2 initialState rfl⟩

/--
C8.  `getArgumentNames` is total and degrades gracefully: on any function
value whose source text the function-head regular expression does not match
(arrow functions, natively-implemented callables, and so on) it returns the
empty list instead of failing (the `null` match makes the indexing `[1]`
throw, and the `catch` returns `[]`); and on a parseable zero-argument
function (empty capture) it also returns the empty list, because the empty
token produced by `split` is dropped by the truthiness filter.
-/
theorem getArgumentNames_graceful :
    (∀ (name src : String) (throwsWith : Option JSVal),
      findFunctionParams src.toList = none →
      getArgumentNames (JSVal.funcV name src throwsWith) = []) ∧
    (∀ (name src : String) (throwsWith : Option JSVal),
      findFunctionParams src.toList = some [] →
      getArgumentNames (JSVal.funcV name src throwsWith) = []) := by
  constructor
  · intro name src throwsWith h
    have h2 : findFunctionParams src.data = none := h
    simp [getArgumentNames, argumentNamesOfSource, jsToString, h2]
  · intro name src throwsWith h
    have h2 : findFunctionParams src.data = some [] := h
    simp [getArgumentNames, argumentNamesOfSource, jsToString, h2, splitCommas,
      stripFirstComment, jsTrim]

theorem getArgumentNames_graceful_witness :
    findFunctionParams (String.toList "(error) => handleIt(error)") = none ∧
    getArgumentNames (JSVal.funcV "arrowSub" "(error) => handleIt(error)" none) = [] ∧
    findFunctionParams (String.toList "function zeroArgs() { return 1; }") = some [] ∧
    getArgumentNames (JSVal.funcV "zeroArgs" "function zeroArgs() { return 1; }" none) = [] := by
  refine ⟨rfl, ?_, rfl, ?_⟩
  · exact getArgumentNames_graceful.1 "arrowSub" "(error) => handleIt(error)" none rfl
  · exact getArgumentNames_graceful.2 "zeroArgs" "function zeroArgs() { return 1; }" none rfl
